import Mathlib

/-!
Shallow embedding of the upstream-request governor of `corsproxydemo.py`
(class `CorsProxyServer`): the per-host backoff ledger
(`_active_backoff`, `_register_backoff`, `_clear_backoff`), the target
validator (`_parse_target`), and the forwarding endpoint (`proxy_raw`).

Modelling conventions:
* `datetime` values are rationals (seconds on an absolute axis); the
  proxy only ever subtracts them and adds integer-second deltas, which
  is exact in ℚ.
* Python `int(x)` on a float/number truncates toward zero (`pyTrunc`).
* Python `float(string)` is modelled by `pyParseFloat` over the grammar
  the ledger can receive: optional surrounding whitespace, optional
  sign, `inf`/`infinity`/`nan` (case-insensitive), or a decimal literal
  with optional fraction and exponent.  Finite values are kept as exact
  rationals (binary64 rounding of in-range finite values is not
  modelled; values past the binary64 range overflow to ±inf as in
  CPython).
* `int(float(s))` raises `ValueError` when `s` does not parse or is
  NaN, and `OverflowError` when the parse yields ±inf (`pyIntFloat`).
* The process-wide dict `self.backoffs` is a `Ledger`, a total map
  `String → Option BackoffRecord`; stateful methods pass it explicitly.
-/

/-- Result classification of CPython `float(string)`. -/
inductive PyFloat where
  | finite (q : ℚ)
  | inf
  | negInf
  | nan
deriving DecidableEq

/-- The two exception classes the ledger's header parsing can raise:
`int(float(s))` raises `ValueError` (caught by `_register_backoff`) or
`OverflowError` (not caught). -/
inductive PyErr where
  | valueError
  | overflowError
deriving DecidableEq

/-- Python `int(x)` on a number: truncation toward zero. -/
def pyTrunc (q : ℚ) : ℤ := if 0 ≤ q then ⌊q⌋ else ⌈q⌉

/-- Accumulate a digit string into a natural number. -/
def digitsToNat (l : List Char) : ℕ :=
  l.foldl (fun a c => 10 * a + (c.toNat - 48)) 0

/-- Consume an optional leading sign; `true` means negative. -/
def takeSign : List Char → Bool × List Char
  | '+' :: rest => (false, rest)
  | '-' :: rest => (true, rest)
  | l => (false, l)

/-- Parse `digits [. digits]` with at least one digit overall, as an
exact rational. -/
def parseDecimalMantissa (l : List Char) : Option ℚ :=
  let ip := l.takeWhile Char.isDigit
  let rest := l.dropWhile Char.isDigit
  match rest with
  | [] => if ip.isEmpty then none else some ((digitsToNat ip : ℚ))
  | '.' :: fp =>
    if fp.all Char.isDigit && !(ip.isEmpty && fp.isEmpty) then
      some ((digitsToNat ip : ℚ) + (digitsToNat fp : ℚ) / ((10 : ℚ) ^ fp.length))
    else none
  | _ => none

/-- Parse an exponent body: optional sign then nonempty digits. -/
def parseExp (l : List Char) : Option ℤ :=
  let (neg, d) := takeSign l
  if d.isEmpty || !(d.all Char.isDigit) then none
  else some (if neg then -(digitsToNat d : ℤ) else (digitsToNat d : ℤ))

/-- Split a character list at the first `e`/`E`, if any. -/
def splitOnExp : List Char → List Char × Option (List Char)
  | [] => ([], none)
  | c :: rest =>
    if c = 'e' ∨ c = 'E' then ([], some rest)
    else
      let p := splitOnExp rest
      (c :: p.1, p.2)

/-- Largest finite binary64 value, exactly. -/
def floatMax : ℚ := ((2 ^ 53 - 1 : ℤ) : ℚ) * 2 ^ 971

/-- Clamp an exact parsed value into the binary64 range, overflowing to
±inf as CPython's string-to-float conversion does. -/
def clampFloat (v : ℚ) : PyFloat :=
  if floatMax < |v| then (if v < 0 then PyFloat.negInf else PyFloat.inf)
  else PyFloat.finite v

/-- The whitespace strip of Python `str.strip()`, over characters. -/
def pyStrip (l : List Char) : List Char :=
  ((l.dropWhile Char.isWhitespace).reverse.dropWhile Char.isWhitespace).reverse

/-- Model of CPython `float(string)`: strip whitespace, optional sign,
then `inf`/`infinity`/`nan` (case-insensitive) or a decimal literal with
optional exponent.  `none` models `ValueError`. -/
def pyParseFloat (s : String) : Option PyFloat :=
  let l := pyStrip s.toList
  let p := takeSign l
  let neg := p.1
  let body := p.2
  let lower := body.map Char.toLower
  if lower = "inf".toList ∨ lower = "infinity".toList then
    some (if neg then PyFloat.negInf else PyFloat.inf)
  else if lower = "nan".toList then
    some PyFloat.nan
  else
    let q := splitOnExp body
    match parseDecimalMantissa q.1, q.2 with
    | some m, none => some (clampFloat (if neg then -m else m))
    | some m, some e =>
      match parseExp e with
      | some k =>
        let v := m * (10 : ℚ) ^ k
        some (clampFloat (if neg then -v else v))
      | none => none
    | none, _ => none

/-- Model of Python `int(float(s))`: `ValueError` when the string does
not parse as a float or parses as NaN, `OverflowError` when it parses as
±infinity, otherwise truncation toward zero. -/
def pyIntFloat (s : String) : Except PyErr ℤ :=
  match pyParseFloat s with
  | none => Except.error PyErr.valueError
  | some PyFloat.nan => Except.error PyErr.valueError
  | some PyFloat.inf => Except.error PyErr.overflowError
  | some PyFloat.negInf => Except.error PyErr.overflowError
  | some (PyFloat.finite q) => Except.ok (pyTrunc q)

/-- `BackoffRecord` from `corsproxydemo.py`: `until` is the absolute
resume time, `attempts` the consecutive-failure count, `status` the
HTTP status that created the record. -/
structure BackoffRecord where
  untilTime : ℚ
  attempts : ℤ
  status : ℤ
deriving DecidableEq

/-- The process-wide `self.backoffs` dict, as a total map. -/
def Ledger : Type := String → Option BackoffRecord

/-- `self.backoffs[host] = record`. -/
def Ledger.set (L : Ledger) (host : String) (r : BackoffRecord) : Ledger :=
  fun k => if k = host then some r else L k

/-- `self.backoffs.pop(host, None)` (the resulting dict). -/
def Ledger.pop (L : Ledger) (host : String) : Ledger :=
  fun k => if k = host then none else L k

/-- The empty backoff dict. -/
def emptyLedger : Ledger := fun _ => none

/-- Constructor-supplied backoff configuration of `CorsProxyServer`. -/
structure Config where
  backoffBaseSeconds : ℤ
  backoffMaxSeconds : ℤ
  longBackoffSeconds : ℤ
deriving DecidableEq

/-- The defaults from `CorsProxyServer.__init__`. -/
def defaultConfig : Config :=
  { backoffBaseSeconds := 30, backoffMaxSeconds := 900,
    longBackoffSeconds := 86400 }

/-- `self.long_backoff_statuses = {403, 404, 500}` (fixed in
`__init__`). -/
def longBackoffStatuses : List ℤ := [403, 404, 500]

/-- `_active_backoff(host)`: look up the record; delete it and report
none when `until <= now`; otherwise report
`int((until - now).total_seconds())`.  Returns the value and the
updated dict. -/
def activeBackoff (L : Ledger) (now : ℚ) (host : String) :
    Option ℤ × Ledger :=
  match L host with
  | none => (none, L)
  | some record =>
    if record.untilTime ≤ now then (none, L.pop host)
    else (some (pyTrunc (record.untilTime - now)), L)

/-- `_register_backoff(host, status_code, retry_after_header)`.  The
header is first collapsed by `retry_after_header or None` (empty string
becomes absent), then parsed by `int(float(...))` inside a
`try/except ValueError`; an `OverflowError` escapes as an uncaught
exception, modelled by `Except.error` paired with the unchanged dict.
Classification: a status in `long_backoff_statuses` resets `attempts`
to 1 with the long delay, otherwise attempts increment and the delay is
`min(base * 2 ** (attempts - 1), max)`; a parsed `Retry-After` can only
raise the delay.  The record is written with `until = now + delay` and
`int(delay)` is returned. -/
def registerBackoff (cfg : Config) (L : Ledger) (now : ℚ) (host : String)
    (statusCode : ℤ) (retryAfterHeader : Option String) :
    Except PyErr ℤ × Ledger :=
  let hdr : Option String :=
    match retryAfterHeader with
    | some s => if s = "" then none else some s
    | none => none
  let parsed : Except PyErr (Option ℤ) :=
    match hdr with
    | none => Except.ok none
    | some s =>
      match pyIntFloat s with
      | Except.ok n => Except.ok (some n)
      | Except.error PyErr.valueError => Except.ok none
      | Except.error e => Except.error e
  match parsed with
  | Except.error e => (Except.error e, L)
  | Except.ok retryAfter =>
    let ad : ℤ × ℚ :=
      if statusCode ∈ longBackoffStatuses then
        (1, (cfg.longBackoffSeconds : ℚ))
      else
        let attempts : ℤ :=
          (match L host with
           | some prior => prior.attempts
           | none => 0) + 1
        (attempts,
          min ((cfg.backoffBaseSeconds : ℚ) * (2 : ℚ) ^ (attempts - 1))
            (cfg.backoffMaxSeconds : ℚ))
    let delay : ℚ :=
      match retryAfter with
      | some n => max ad.2 (n : ℚ)
      | none => ad.2
    (Except.ok (pyTrunc delay),
      L.set host { untilTime := now + delay, attempts := ad.1,
                   status := statusCode })

/-- `_clear_backoff(host)`: `self.backoffs.pop(host, None)`. -/
def clearBackoff (L : Ledger) (host : String) : Ledger := L.pop host

/-! ### Python dicts of strings, and the pieces of `proxy_raw` -/

/-- A Python `dict[str, str]` in insertion order (keys unique by
construction through `dictSet`). -/
abbrev Dict := List (String × String)

/-- `d.get(k)` / `d.get(k, None)`: exact-key lookup. -/
def dictGet (d : Dict) (k : String) : Option String :=
  (d.find? (fun kv => kv.1 = k)).map (fun kv => kv.2)

/-- `d[k] = v`: replace in place when the key exists, else append. -/
def dictSet : Dict → String → String → Dict
  | [], k, v => [(k, v)]
  | p :: t, k, v => if p.1 = k then (k, v) :: t else p :: dictSet t k v

/-- Python `str.lower()` (ASCII suffices for header names). -/
def pyLower (s : String) : String := String.mk (s.data.map Char.toLower)

/-- `d.pop(k, None)` (the resulting dict). -/
def dictPop (d : Dict) (k : String) : Dict :=
  d.filter (fun kv => kv.1 ≠ k)

/-- A dict comprehension `{k: v for k, v in items if ...}` after the
filter: later duplicates overwrite earlier ones. -/
def dictOfItems (items : List (String × String)) : Dict :=
  items.foldl (fun d kv => dictSet d kv.1 kv.2) []

/-- `HOP_BY_HOP_HEADERS` from `corsproxydemo.py`. -/
def hopByHopHeaders : List String :=
  ["connection", "keep-alive", "proxy-authenticate",
   "proxy-authorization", "te", "trailer", "transfer-encoding",
   "upgrade"]

/-- Lines 296–302 of `proxy_raw`: keep the items whose lowercased key
is not hop-by-hop, build the dict, then pop the exact keys
`content-length` and `content-encoding`. -/
def sanitizeHeaders (items : List (String × String)) : Dict :=
  dictPop
    (dictPop
      (dictOfItems
        (items.filter (fun kv => decide (pyLower kv.1 ∉ hopByHopHeaders))))
      "content-length")
    "content-encoding"

/-- The observable result of a successful `httpx.URL(raw)` call: the
accessors `_parse_target` and `_host_key` use (`.scheme`, `.host`,
`str(...)`). -/
structure URLModel where
  scheme : String
  host : String
  toStr : String

/-- An `HTTPException(status_code, detail, headers)`; the only header
the proxy ever attaches is `Retry-After`. -/
structure HttpError where
  status : ℤ
  detail : String
  retryAfter : Option ℤ
deriving DecidableEq

/-- A failure of the validation phase: an `HTTPException` raised by the
proxy's own checks, or an `httpx.InvalidURL` exception raised inside
`httpx.URL(...)` — the code catches neither `InvalidURL` nor anything
else there, so it propagates out of `proxy_raw`. -/
inductive TargetFailure where
  | httpError (e : HttpError)
  | invalidURL
deriving DecidableEq

/-- `_parse_target(raw_url)`: reject empty input with a 400; call
`httpx.URL(raw_url)` — the parser is an external collaborator
parameterised as `U`, and `U raw = none` models a raised
`httpx.InvalidURL` (e.g. on a non-numeric port), which `_parse_target`
does not catch; then reject with a 400 unless the parsed scheme is
`http`/`https` and the host is non-empty; on success return
`str(target)`. -/
def parseTarget (U : String → Option URLModel) (raw : String) :
    Except TargetFailure String :=
  if raw = "" then
    Except.error (TargetFailure.httpError
      { status := 400, detail := "Missing url parameter",
        retryAfter := none })
  else
    match U raw with
    | none => Except.error TargetFailure.invalidURL
    | some target =>
      if ¬(target.scheme = "http" ∨ target.scheme = "https") ∨
          target.host = "" then
        Except.error (TargetFailure.httpError
          { status := 400,
            detail := "Only absolute http(s) URLs with a host are allowed",
            retryAfter := none })
      else Except.ok target.toStr

/-- `_host_key(target)`: re-parse the normalized URL (again through the
fallible parser) and take its host, rejecting an empty host. -/
def hostKeyOf (U : String → Option URLModel) (target : String) :
    Except TargetFailure String :=
  match U target with
  | none => Except.error TargetFailure.invalidURL
  | some parsed =>
    if parsed.host = "" then
      Except.error (TargetFailure.httpError
        { status := 400, detail := "Target host is required",
          retryAfter := none })
    else Except.ok parsed.host

/-- What the model observes of the upstream `httpx` response: status
code and the pairs yielded by `upstream.headers.items()`. -/
structure UpstreamResp where
  status : ℤ
  headers : List (String × String)

/-- Outcome of one `proxy_raw` call: a raised `HTTPException`, a
returned `Response` (status and header dict; the body is forwarded
verbatim and not modelled), an uncaught Python exception from the
ledger's header parsing, or an uncaught `httpx.InvalidURL` from URL
parsing. -/
inductive ProxyOutcome where
  | httpError (e : HttpError)
  | response (status : ℤ) (headers : Dict)
  | pyError (e : PyErr)
  | invalidURL
deriving DecidableEq

/-- `proxy_raw(request, url)` with the external collaborators made
explicit: `U` is the `httpx.URL` parser, `fetch` the upstream round
trip (`none` models `httpx.RequestError`), `now1`/`now2` the values of
the two `_now()` calls.  Returns the outcome, the final backoff dict,
and whether an upstream call was made. -/
def proxyRaw (cfg : Config) (U : String → Option URLModel)
    (fetch : Option UpstreamResp) (L : Ledger) (now1 now2 : ℚ)
    (url : String) : ProxyOutcome × Ledger × Bool :=
  match parseTarget U url with
  | Except.error (TargetFailure.httpError e) =>
    (ProxyOutcome.httpError e, L, false)
  | Except.error TargetFailure.invalidURL =>
    (ProxyOutcome.invalidURL, L, false)
  | Except.ok target =>
    match hostKeyOf U target with
    | Except.error (TargetFailure.httpError e) =>
      (ProxyOutcome.httpError e, L, false)
    | Except.error TargetFailure.invalidURL =>
      (ProxyOutcome.invalidURL, L, false)
    | Except.ok hostKey =>
      let wl := activeBackoff L now1 hostKey
      let L1 := wl.2
      let proceed : ProxyOutcome × Ledger × Bool :=
        match fetch with
        | none =>
          let dl := registerBackoff cfg L1 now2 hostKey 503 none
          match dl.1 with
          | Except.ok delay =>
            (ProxyOutcome.httpError
              { status := 502, detail := "Upstream connection failed",
                retryAfter := some delay }, dl.2, true)
          | Except.error e => (ProxyOutcome.pyError e, dl.2, true)
        | some upstream =>
          let headers := sanitizeHeaders upstream.headers
          if upstream.status = 429 ∨ upstream.status ∈ longBackoffStatuses
          then
            let dl := registerBackoff cfg L1 now2 hostKey upstream.status
              (dictGet headers "Retry-After")
            match dl.1 with
            | Except.ok delay =>
              (ProxyOutcome.response upstream.status
                (dictSet headers "Retry-After" (toString delay)), dl.2, true)
            | Except.error e => (ProxyOutcome.pyError e, dl.2, true)
          else
            (ProxyOutcome.response upstream.status headers,
              clearBackoff L1 hostKey, true)
      -- `if wait:` — Python truthiness: `None` and `0` both fall through
      match wl.1 with
      | some w =>
        if w = 0 then proceed
        else
          (ProxyOutcome.httpError
            { status := 429,
              detail := "Backoff in effect for upstream host",
              retryAfter := some w }, L1, false)
      | none => proceed

/-- Iterate `_register_backoff` over a list of `(now, status_code)`
calls for one host, no `Retry-After` header, collecting the returned
delays (a header of `none` never raises, so the error branch is
unreachable; it stops the iteration). -/
def registerSequence (cfg : Config) (host : String)
    (calls : List (ℚ × ℤ)) (L : Ledger) : List ℤ × Ledger :=
  match calls with
  | [] => ([], L)
  | c :: rest =>
    match registerBackoff cfg L c.1 host c.2 none with
    | (Except.ok d, L1) =>
      let p := registerSequence cfg host rest L1
      (d :: p.1, p.2)
    | (Except.error _, L1) => ([], L1)

/-- Decidable equality for parse results, used by concrete evaluations. -/
instance : DecidableEq (Except PyErr ℤ) := fun x y =>
  match x, y with
  | Except.ok a, Except.ok b =>
    if h : a = b then isTrue (by rw [h]) else isFalse (by simp [h])
  | Except.ok _, Except.error _ => isFalse (by simp)
  | Except.error _, Except.ok _ => isFalse (by simp)
  | Except.error a, Except.error b =>
    if h : a = b then isTrue (by rw [h]) else isFalse (by simp [h])


/-! ### Evaluation helpers -/

/-- Decidable equality for parse results, used by concrete evaluations. -/
instance : DecidableEq (Except PyErr ℤ) := fun x y =>
  match x, y with
  | Except.ok a, Except.ok b =>
    if h : a = b then isTrue (by rw [h]) else isFalse (by simp [h])
  | Except.ok _, Except.error _ => isFalse (by simp)
  | Except.error _, Except.ok _ => isFalse (by simp)
  | Except.error a, Except.error b =>
    if h : a = b then isTrue (by rw [h]) else isFalse (by simp [h])

theorem pyTrunc_nonneg (q : ℚ) (h : 0 ≤ q) : pyTrunc q = ⌊q⌋ := by
  simp [pyTrunc, h]

theorem pyTrunc_intCast (n : ℤ) : pyTrunc (n : ℚ) = n := by
  unfold pyTrunc
  split <;> simp

theorem ledger_set_self (L : Ledger) (host : String) (r : BackoffRecord) :
    Ledger.set L host r host = some r := by
  simp [Ledger.set]

theorem le_pyTrunc_sup (q : ℚ) (n : ℤ) (hn : 0 ≤ n) :
    n ≤ pyTrunc (q ⊔ (n : ℚ)) := by
  have hmax : (n : ℚ) ≤ q ⊔ (n : ℚ) := le_sup_right
  have h0 : (0 : ℚ) ≤ q ⊔ (n : ℚ) :=
    le_trans (by exact_mod_cast hn) hmax
  rw [pyTrunc_nonneg _ h0]
  exact Int.le_floor.mpr hmax

/-! ### C1: the `checkActive` contract -/

/-- C1, counterexample: with a record whose `resumeAt` is half a second
in the future (`untilTime = 1/2`, `now = 0`), `_active_backoff` returns
`some 0`, although `ceil(resumeAt - now) = 1`; the claimed return value
`ceil(resumeAt - now) >= 1` is wrong. -/
theorem activeBackoff_subsecond_returns_zero :
    (activeBackoff (Ledger.set emptyLedger "x"
        { untilTime := 1/2, attempts := 1, status := 429 }) 0 "x").1 =
      some 0 ∧
    (0 : ℚ) < 1/2 ∧ ⌈(1/2 : ℚ) - 0⌉ = 1 ∧ ¬ (1 : ℤ) ≤ 0 := by
  refine ⟨?_, by norm_num, ?_, by norm_num⟩
  · have h0 : pyTrunc (1/2 - 0 : ℚ) = 0 := by
      rw [pyTrunc_nonneg _ (by norm_num), Int.floor_eq_iff] <;> norm_num
    simp [activeBackoff, ledger_set_self]
    rw [if_neg (by norm_num)]
    simpa using h0
  · rw [Int.ceil_eq_iff] <;> norm_num

/-- C1, amended: `_active_backoff` returns none when the host is
absent; deletes the record and returns none when `resumeAt <= now`;
otherwise returns `floor(resumeAt - now)` seconds, a value that is
`>= 0` (and is `0` when less than one second remains, not `>= 1` as
claimed; the rounding is truncation, not `ceil`). -/
theorem activeBackoff_contract (L : Ledger) (now : ℚ) (host : String) :
    (L host = none → activeBackoff L now host = (none, L)) ∧
    (∀ r, L host = some r → r.untilTime ≤ now →
      activeBackoff L now host = (none, L.pop host)) ∧
    (∀ r, L host = some r → now < r.untilTime →
      activeBackoff L now host = (some ⌊r.untilTime - now⌋, L) ∧
        0 ≤ ⌊r.untilTime - now⌋) := by
  refine ⟨fun h => by rw [activeBackoff, h], fun r hr hle => ?_, fun r hr hlt => ?_⟩
  · simp [activeBackoff, hr, hle]
  · have hpos : (0 : ℚ) ≤ r.untilTime - now := by linarith
    constructor
    · simp [activeBackoff, hr, not_le.mpr hlt, pyTrunc_nonneg _ hpos]
    · exact Int.floor_nonneg.mpr hpos

/-! ### C8: `clear` semantics -/

/-- C8: after `_clear_backoff(host)`, `_active_backoff(host)` returns
none immediately (and does not change the dict further); clearing twice
equals clearing once; clearing a host with no record leaves the dict
unchanged (total, so it never fails). -/
theorem clearBackoff_contract (L : Ledger) (host : String) (now : ℚ) :
    activeBackoff (clearBackoff L host) now host =
      (none, clearBackoff L host) ∧
    clearBackoff (clearBackoff L host) host = clearBackoff L host ∧
    (L host = none → clearBackoff L host = L) := by
  refine ⟨?_, ?_, fun h => ?_⟩
  · simp [activeBackoff, clearBackoff, Ledger.pop]
  · funext k
    by_cases hk : k = host <;> simp [clearBackoff, Ledger.pop, hk]
  · funext k
    by_cases hk : k = host
    · simp [clearBackoff, Ledger.pop, hk, h.symm]
    · simp [clearBackoff, Ledger.pop, hk]

/-! ### C10: per-host frame property of the ledger operations -/

/-- C10: for a key `k` different from `host`, none of the three ledger
operations applied to `host` changes the entry stored for `k`. -/
theorem ledger_ops_frame (cfg : Config) (L : Ledger) (now : ℚ)
    (host k : String) (status : ℤ) (hdr : Option String)
    (hk : k ≠ host) :
    (activeBackoff L now host).2 k = L k ∧
    (registerBackoff cfg L now host status hdr).2 k = L k ∧
    clearBackoff L host k = L k := by
  refine ⟨?_, ?_, by simp [clearBackoff, Ledger.pop, hk]⟩
  · unfold activeBackoff
    cases h : L host with
    | none => rfl
    | some r =>
      by_cases hle : r.untilTime ≤ now <;> simp [h, hle, Ledger.pop, hk]
  · unfold registerBackoff
    dsimp only
    split
    · rfl
    · simp [Ledger.set, hk]

/-- C10, witness: the frame property applied at a concrete input. -/
theorem ledger_ops_frame_witness :
    (activeBackoff emptyLedger 0 "b").2 "a" = emptyLedger "a" ∧
    (registerBackoff defaultConfig emptyLedger 0 "b" 429 none).2 "a" =
      emptyLedger "a" ∧
    clearBackoff emptyLedger "b" "a" = emptyLedger "a" :=
  ledger_ops_frame defaultConfig emptyLedger 0 "b" "a" 429 none
    (by decide)

/-! ### C3: uncaught `OverflowError` on an infinite `Retry-After` -/

/-- C3: at host `x`, status 429, `retry_after_header = "inf"` the code
raises an uncaught `OverflowError` (only `ValueError` is caught around
`int(float(...))`), leaving the dict unchanged — `registerFailure` does
not "always succeed". -/
theorem registerBackoff_inf_uncaught :
    registerBackoff defaultConfig emptyLedger 0 "x" 429 (some "inf") =
      (Except.error PyErr.overflowError, emptyLedger) := by
  rfl

/-! ### C5: long-backoff statuses reset the attempt counter -/

/-- C5: for any prior dict, a status in `long_backoff_statuses` makes
`_register_backoff` write `attempts = 1` with `delay =
long_backoff_seconds` (with no `Retry-After` header the returned delay
is exactly `long_backoff_seconds`; with any header, whenever the call
returns normally the stored record still has `attempts = 1`). -/
theorem registerBackoff_long_resets (cfg : Config) (L : Ledger)
    (now : ℚ) (host : String) (status : ℤ) (hdr : Option String)
    (h : status ∈ longBackoffStatuses) :
    registerBackoff cfg L now host status none =
      (Except.ok cfg.longBackoffSeconds,
        L.set host { untilTime := now + (cfg.longBackoffSeconds : ℚ),
                     attempts := 1, status := status }) ∧
    (∀ d L2, registerBackoff cfg L now host status hdr =
        (Except.ok d, L2) →
      ∃ r, L2 host = some r ∧ r.attempts = 1 ∧ r.status = status) := by
  constructor
  · simp [registerBackoff, h, pyTrunc_intCast]
  · intro d L2 heq
    unfold registerBackoff at heq
    dsimp only at heq
    split at heq
    · exact absurd heq (by simp)
    · rw [if_pos h] at heq
      injection heq with h1 h2
      subst h2
      exact ⟨_, ledger_set_self _ _ _, rfl, rfl⟩

/-- C5, witness: a 404 with an empty dict at host `y`. -/
theorem registerBackoff_long_resets_witness :
    registerBackoff defaultConfig emptyLedger 0 "y" 404 none =
      (Except.ok defaultConfig.longBackoffSeconds,
        Ledger.set emptyLedger "y"
          { untilTime := 0 + (defaultConfig.longBackoffSeconds : ℚ),
            attempts := 1, status := 404 }) ∧
    (∀ d L2, registerBackoff defaultConfig emptyLedger 0 "y" 404 none =
        (Except.ok d, L2) →
      ∃ r, L2 "y" = some r ∧ r.attempts = 1 ∧ r.status = 404) :=
  registerBackoff_long_resets defaultConfig emptyLedger 0 "y" 404 none
    (by decide)

/-! ### C6: a parsed non-negative `Retry-After` is a lower bound -/

/-- C6: whenever `retry_after_header` parses (as the code parses it,
`int(float(...))`) to a non-negative integer `n`, `_register_backoff`
returns normally and its delay is at least `n`: the header extends but
never shortens the computed delay. -/
theorem registerBackoff_retry_after_lower_bound (cfg : Config)
    (L : Ledger) (now : ℚ) (host : String) (status : ℤ) (s : String)
    (n : ℤ) (hs : pyIntFloat s = Except.ok n) (hn : 0 ≤ n) :
    ∃ d L2, registerBackoff cfg L now host status (some s) =
      (Except.ok d, L2) ∧ n ≤ d := by
  have hne : s ≠ "" := by
    intro h
    rw [h] at hs
    have hempty : pyIntFloat "" = Except.error PyErr.valueError := by
      decide
    rw [hempty] at hs
    exact Except.noConfusion hs
  unfold registerBackoff
  simp only [hne, hs, if_false, ite_false, reduceIte]
  refine ⟨_, _, rfl, ?_⟩
  exact le_pyTrunc_sup _ n hn

theorem pyIntFloat_fortyfive : pyIntFloat "45" = Except.ok 45 := by
  have h1 : pyParseFloat "45" = some (clampFloat 45) := by
    simp +decide [pyParseFloat, pyStrip, takeSign, splitOnExp,
      parseDecimalMantissa, digitsToNat]
  have h2 : clampFloat 45 = PyFloat.finite 45 := by
    rw [clampFloat, if_neg]
    rw [abs_of_nonneg (by norm_num : (0:ℚ) ≤ 45)]
    norm_num [floatMax]
  rw [pyIntFloat, h1, h2]
  show Except.ok (pyTrunc 45) = Except.ok 45
  rw [pyTrunc_nonneg _ (by norm_num)]
  norm_num

/-- C6, witness: a `Retry-After: 45` on a 429 with an empty dict. -/
theorem registerBackoff_retry_after_lower_bound_witness :
    ∃ d L2, registerBackoff defaultConfig emptyLedger 0 "x" 429
      (some "45") = (Except.ok d, L2) ∧ 45 ≤ d :=
  registerBackoff_retry_after_lower_bound defaultConfig emptyLedger 0 "x"
    429 "45" 45 pyIntFloat_fortyfive (by norm_num)

/-! ### C4: exponential short-backoff delays -/

theorem registerBackoff_short_step (cfg : Config) (L : Ledger)
    (now : ℚ) (host : String) (status : ℤ) (a : ℕ)
    (hL : (match L host with
          | some prior => prior.attempts
          | none => 0) = (a : ℤ))
    (hshort : status ∉ longBackoffStatuses) :
    registerBackoff cfg L now host status none =
      (Except.ok (min (cfg.backoffBaseSeconds * 2 ^ a)
          cfg.backoffMaxSeconds),
        L.set host
          { untilTime := now +
              ((min (cfg.backoffBaseSeconds * 2 ^ a)
                cfg.backoffMaxSeconds : ℤ) : ℚ),
            attempts := (a : ℤ) + 1, status := status }) := by
  have key : min ((cfg.backoffBaseSeconds : ℚ) *
        (2 : ℚ) ^ ((a : ℤ) + 1 - 1)) (cfg.backoffMaxSeconds : ℚ) =
      ((min (cfg.backoffBaseSeconds * 2 ^ a)
        cfg.backoffMaxSeconds : ℤ) : ℚ) := by
    have he : ((a : ℤ) + 1 - 1) = (a : ℤ) := by ring
    rw [he, zpow_natCast]
    push_cast
    rfl
  unfold registerBackoff
  simp only [hshort, if_false, ite_false, reduceIte, hL, key,
    pyTrunc_intCast]

theorem registerSequence_short_delays (cfg : Config) (host : String)
    (calls : List (ℚ × ℤ)) (L : Ledger) (a : ℕ)
    (hL : (match L host with
          | some prior => prior.attempts
          | none => 0) = (a : ℤ))
    (hshort : ∀ c ∈ calls, c.2 ∉ longBackoffStatuses) :
    (registerSequence cfg host calls L).1 =
      (List.range calls.length).map
        (fun i => min (cfg.backoffBaseSeconds * 2 ^ (a + i))
          cfg.backoffMaxSeconds) := by
  induction calls generalizing L a with
  | nil => simp [registerSequence]
  | cons c rest ih =>
    have hc : c.2 ∉ longBackoffStatuses := hshort c (by simp)
    have hstep := registerBackoff_short_step cfg L c.1 host c.2 a hL hc
    have hL2 : (match
          Ledger.set L host
            { untilTime := c.1 +
                ((min (cfg.backoffBaseSeconds * 2 ^ a)
                  cfg.backoffMaxSeconds : ℤ) : ℚ),
              attempts := (a : ℤ) + 1, status := c.2 } host with
        | some prior => prior.attempts
        | none => 0) = ((a + 1 : ℕ) : ℤ) := by
      rw [ledger_set_self]
      push_cast
      rfl
    have hrest : ∀ d ∈ rest, d.2 ∉ longBackoffStatuses :=
      fun d hd => hshort d (List.mem_cons_of_mem c hd)
    rw [registerSequence, hstep]
    dsimp only
    rw [ih _ _ hL2 hrest]
    rw [List.length_cons, List.range_succ_eq_map]
    simp only [List.map_cons, List.map_map, pow_zero]
    congr 1
    refine List.map_congr_left (fun i _ => ?_)
    simp only [Function.comp_apply]
    have he : a + 1 + i = a + i.succ := by omega
    rw [he]

/-- C4: starting from a dict with no record for `host`, consecutive
short-backoff `_register_backoff` calls (status outside the long set,
no `Retry-After` header) return as the Nth delay
`min(backoff_base * 2^(N-1), backoff_max)` (here indexed `i = N-1`). -/
theorem registerSequence_delays (cfg : Config) (host : String)
    (calls : List (ℚ × ℤ)) (L : Ledger) (hL : L host = none)
    (hshort : ∀ c ∈ calls, c.2 ∉ longBackoffStatuses) :
    (registerSequence cfg host calls L).1 =
      (List.range calls.length).map
        (fun i => min (cfg.backoffBaseSeconds * 2 ^ i)
          cfg.backoffMaxSeconds) := by
  have h := registerSequence_short_delays cfg host calls L 0
    (by simp [hL]) hshort
  simpa using h

/-- C4, witness: defaults `base = 30, max = 900`, three consecutive
429s on host `x` yield the delays 30, 60, 120. -/
theorem registerSequence_delays_witness :
    (registerSequence defaultConfig "x" [(0, 429), (1, 429), (2, 429)]
      emptyLedger).1 = [30, 60, 120] := by
  have h := registerSequence_delays defaultConfig "x"
    [(0, 429), (1, 429), (2, 429)] emptyLedger rfl (by decide)
  rw [h]
  decide

/-! ### C7: the target validator -/

/-- C7, counterexample: `httpx.URL("http://a:bc/")` raises
`httpx.InvalidURL` (non-numeric port); `_parse_target` does not catch
it, so the validator fails by propagating that exception, not with the
400 `InvalidRequest` error — the claim's "fails with that error and
nothing else" is false of the code.  (The parser here is the concrete
model of `httpx.URL` on this input: `none` is the raised
`InvalidURL`.) -/
theorem parseTarget_invalidURL_propagates :
    parseTarget (fun s => if s = "http://a:bc/" then none
        else some (URLModel.mk "http" "a" s)) "http://a:bc/" =
      Except.error TargetFailure.invalidURL ∧
    (∀ e : HttpError, (Except.error TargetFailure.invalidURL :
        Except TargetFailure String) ≠
      Except.error (TargetFailure.httpError e)) := by
  refine ⟨rfl, fun e h => ?_⟩
  injection h with h2
  exact TargetFailure.noConfusion h2

/-- C7, amended: when `httpx.URL` returns normally, `_parse_target`
fails with a 400 `HTTPException` exactly when the input is empty, or
the parsed scheme is not `http`/`https`, or the parsed host is empty,
and in every other case returns the normalized URL string
`str(target)`; but when the parser raises `httpx.InvalidURL` on a
non-empty input, that exception propagates uncaught instead of the
400 error. -/
theorem parseTarget_contract (U : String → Option URLModel)
    (raw : String) :
    (raw = "" → parseTarget U raw =
      Except.error (TargetFailure.httpError
        (HttpError.mk 400 "Missing url parameter" none))) ∧
    (raw ≠ "" → U raw = none →
      parseTarget U raw = Except.error TargetFailure.invalidURL) ∧
    (∀ t, raw ≠ "" → U raw = some t →
      ((∃ e, parseTarget U raw =
          Except.error (TargetFailure.httpError e) ∧ e.status = 400) ↔
        (¬(t.scheme = "http" ∨ t.scheme = "https") ∨ t.host = "")) ∧
      (¬(¬(t.scheme = "http" ∨ t.scheme = "https") ∨ t.host = "") →
        parseTarget U raw = Except.ok t.toStr)) := by
  refine ⟨fun h1 => by simp only [parseTarget, if_pos h1],
    fun h1 hU => by simp only [parseTarget, if_neg h1, hU],
    fun t h1 hU => ?_⟩
  by_cases h2 : ¬(t.scheme = "http" ∨ t.scheme = "https") ∨ t.host = ""
  · refine ⟨⟨fun _ => h2,
      fun _ => ⟨HttpError.mk 400
        "Only absolute http(s) URLs with a host are allowed" none,
        ?_, rfl⟩⟩,
      fun hc => absurd h2 hc⟩
    simp only [parseTarget, if_neg h1, hU, if_pos h2]
  · have hok : parseTarget U raw = Except.ok t.toStr := by
      simp only [parseTarget, if_neg h1, hU, if_neg h2]
    refine ⟨⟨?_, fun h => absurd h h2⟩, fun _ => hok⟩
    rintro ⟨e, he, -⟩
    rw [hok] at he
    exact Except.noConfusion he

/-! ### C9: header sanitization -/

theorem dictGet_cons (q : String × String) (t : Dict) (k : String) :
    dictGet (q :: t) k = if q.1 = k then some q.2 else dictGet t k := by
  rw [dictGet, List.find?_cons]
  by_cases h : q.1 = k
  · simp [h, dictGet]
  · simp [h, dictGet]

theorem mem_dictSet (d : Dict) (a b : String) (p : String × String)
    (hp : p ∈ dictSet d a b) : p = (a, b) ∨ p ∈ d := by
  induction d with
  | nil => simpa [dictSet] using hp
  | cons q t ih =>
    rw [dictSet] at hp
    split at hp
    · rcases List.mem_cons.mp hp with h | h
      · exact Or.inl h
      · exact Or.inr (List.mem_cons_of_mem q h)
    · rcases List.mem_cons.mp hp with h | h
      · exact Or.inr (h ▸ List.mem_cons_self q t)
      · rcases ih h with h2 | h2
        · exact Or.inl h2
        · exact Or.inr (List.mem_cons_of_mem q h2)

theorem mem_dictOfItems_aux (l : List (String × String)) (d : Dict)
    (p : String × String)
    (hp : p ∈ l.foldl (fun d kv => dictSet d kv.1 kv.2) d) :
    p ∈ d ∨ p ∈ l := by
  induction l generalizing d with
  | nil => exact Or.inl hp
  | cons q t ih =>
    rw [List.foldl_cons] at hp
    rcases ih _ hp with h | h
    · rcases mem_dictSet _ _ _ _ h with h2 | h2
      · refine Or.inr ?_
        rw [h2]
        simp
      · exact Or.inl h2
    · exact Or.inr (List.mem_cons_of_mem q h)

theorem mem_dictOfItems (l : List (String × String))
    (p : String × String) (hp : p ∈ dictOfItems l) : p ∈ l := by
  rcases mem_dictOfItems_aux l [] p hp with h | h
  · exact absurd h (List.not_mem_nil p)
  · exact h

theorem dictGet_set (d : Dict) (a b k : String) :
    dictGet (dictSet d a b) k =
      if k = a then some b else dictGet d k := by
  induction d with
  | nil =>
    by_cases hk : k = a
    · rw [dictSet, dictGet_cons, if_pos hk.symm, if_pos hk]
    · rw [dictSet, dictGet_cons, if_neg (fun h => hk h.symm), if_neg hk]
  | cons q t ih =>
    rw [dictSet]
    by_cases hq : q.1 = a
    · rw [if_pos hq, dictGet_cons]
      by_cases hk : k = a
      · rw [if_pos hk.symm, if_pos hk]
      · rw [if_neg (fun h => hk h.symm), if_neg hk, dictGet_cons,
          if_neg (fun h => hk (h.symm.trans hq))]
    · rw [if_neg hq, dictGet_cons, dictGet_cons, ih]
      by_cases hqk : q.1 = k
      · have hka : ¬ k = a := fun h => hq (hqk.trans h)
        simp [hqk, hka]
      · simp [hqk]

theorem dictGet_pop (d : Dict) (j k : String) (hk : k ≠ j) :
    dictGet (dictPop d j) k = dictGet d k := by
  induction d with
  | nil => rfl
  | cons q t ih =>
    by_cases hq : q.1 = j
    · have hqk : ¬ q.1 = k := fun h => hk (h.symm.trans hq)
      have hstep : dictPop (q :: t) j = dictPop t j := by
        simp [dictPop, List.filter_cons, hq]
      rw [hstep, ih, dictGet_cons, if_neg hqk]
    · have hstep : dictPop (q :: t) j = q :: dictPop t j := by
        simp [dictPop, List.filter_cons, hq]
      rw [hstep, dictGet_cons, dictGet_cons, ih]

theorem dictGet_ofItems_isSome (l : List (String × String)) (d : Dict)
    (k v : String)
    (h : (∃ w, dictGet d k = some w) ∨ (k, v) ∈ l) :
    ∃ w, dictGet (l.foldl (fun d kv => dictSet d kv.1 kv.2) d) k =
      some w := by
  induction l generalizing d with
  | nil =>
    rcases h with h | h
    · exact h
    · exact absurd h (List.not_mem_nil _)
  | cons q t ih =>
    rw [List.foldl_cons]
    refine ih _ ?_
    rcases h with ⟨w, hw⟩ | h
    · refine Or.inl ?_
      rw [dictGet_set]
      by_cases hk : k = q.1
      · exact ⟨q.2, by rw [if_pos hk]⟩
      · exact ⟨w, by rw [if_neg hk]; exact hw⟩
    · rcases List.mem_cons.mp h with h2 | h2
      · refine Or.inl ⟨q.2, ?_⟩
        rw [dictGet_set, if_pos]
        exact congrArg Prod.fst h2
      · exact Or.inr h2

/-- C9: given the HTTP client's lowercase-normalized header keys (the
`httpx.Headers` boundary yields lowercased keys from `items()`), the
header dict built at lines 296–302 of `proxy_raw` contains no
hop-by-hop header, no `content-length` and no `content-encoding` key
under any letter casing, and every other upstream header key is still
present. -/
theorem sanitizeHeaders_contract (items : List (String × String))
    (hlow : ∀ p ∈ items, pyLower p.1 = p.1) :
    (∀ p ∈ sanitizeHeaders items,
      pyLower p.1 ∉ hopByHopHeaders ∧
      pyLower p.1 ≠ "content-length" ∧
      pyLower p.1 ≠ "content-encoding") ∧
    (∀ p ∈ items, pyLower p.1 ∉ hopByHopHeaders →
      pyLower p.1 ≠ "content-length" →
      pyLower p.1 ≠ "content-encoding" →
      ∃ v, dictGet (sanitizeHeaders items) p.1 = some v) := by
  constructor
  · intro p hp
    rw [sanitizeHeaders] at hp
    obtain ⟨hp1, hce⟩ := List.mem_filter.mp hp
    obtain ⟨hp2, hcl⟩ := List.mem_filter.mp hp1
    have hmem := mem_dictOfItems _ _ hp2
    obtain ⟨hpitems, hhop⟩ := List.mem_filter.mp hmem
    have hkey := hlow p hpitems
    refine ⟨of_decide_eq_true hhop, ?_, ?_⟩
    · rw [hkey]
      exact of_decide_eq_true hcl
    · rw [hkey]
      exact of_decide_eq_true hce
  · intro p hp hhop hcl hce
    have hkey := hlow p hp
    have hfil : p ∈ items.filter
        (fun kv => decide (pyLower kv.1 ∉ hopByHopHeaders)) :=
      List.mem_filter.mpr ⟨hp, decide_eq_true hhop⟩
    have h1 := dictGet_ofItems_isSome
      (items.filter (fun kv => decide (pyLower kv.1 ∉ hopByHopHeaders)))
      [] p.1 p.2 (Or.inr (by rw [Prod.mk.eta]; exact hfil))
    have hce2 : p.1 ≠ "content-encoding" := by
      rw [← hkey]
      exact hce
    have hcl2 : p.1 ≠ "content-length" := by
      rw [← hkey]
      exact hcl
    rw [sanitizeHeaders, dictGet_pop _ _ _ hce2, dictGet_pop _ _ _ hcl2,
      dictOfItems]
    exact h1

/-- C9, witness: a concrete header list with lowercase keys. -/
theorem sanitizeHeaders_contract_witness :
    ∃ v, dictGet (sanitizeHeaders
      [("content-type", "a"), ("connection", "b"),
       ("content-length", "3"), ("retry-after", "9")])
      "content-type" = some v :=
  (sanitizeHeaders_contract
    [("content-type", "a"), ("connection", "b"),
     ("content-length", "3"), ("retry-after", "9")] (by decide)).2
    ("content-type", "a") (by decide) (by decide) (by decide) (by decide)

/-! ### C2: throttling in `proxy_raw` -/

/-- C2, amended: when the target validates, the host key is non-empty
and the host's record satisfies `now + 1 <= resumeAt` (at least one
full second remaining, so that `int(resumeAt - now)` is non-zero and
truthy), `proxy_raw` raises 429 with `Retry-After =
floor(resumeAt - now)`, leaves the dict unchanged and makes no
upstream call. -/
theorem proxyRaw_throttles (cfg : Config)
    (U : String → Option URLModel) (fetch : Option UpstreamResp)
    (L : Ledger) (now1 now2 : ℚ) (url : String) (t t2 : URLModel)
    (r : BackoffRecord)
    (hurl : url ≠ "")
    (hU : U url = some t)
    (hscheme : t.scheme = "http" ∨ t.scheme = "https")
    (hhost : t.host ≠ "")
    (hU2 : U t.toStr = some t2)
    (hkey : t2.host ≠ "")
    (hr : L t2.host = some r)
    (hfut : now1 + 1 ≤ r.untilTime) :
    proxyRaw cfg U fetch L now1 now2 url =
      (ProxyOutcome.httpError
        (HttpError.mk 429 "Backoff in effect for upstream host"
          (some ⌊r.untilTime - now1⌋)), L, false) := by
  have htarget : parseTarget U url = Except.ok t.toStr := by
    have hcond : ¬(¬(t.scheme = "http" ∨ t.scheme = "https") ∨
        t.host = "") := by
      push_neg
      exact ⟨hscheme, hhost⟩
    simp only [parseTarget, if_neg hurl, hU, if_neg hcond]
  have hhk : hostKeyOf U t.toStr = Except.ok t2.host := by
    simp only [hostKeyOf, hU2, if_neg hkey]
  have hlt : now1 < r.untilTime := by linarith
  have hab : activeBackoff L now1 t2.host =
      (some (pyTrunc (r.untilTime - now1)), L) := by
    simp [activeBackoff, hr, not_le.mpr hlt]
  have hw : pyTrunc (r.untilTime - now1) = ⌊r.untilTime - now1⌋ :=
    pyTrunc_nonneg _ (by linarith)
  have hge : 1 ≤ ⌊r.untilTime - now1⌋ := by
    rw [Int.le_floor]
    push_cast
    linarith
  simp only [proxyRaw, htarget, hhk, hab, hw]
  rw [if_neg (by omega : ¬ ⌊r.untilTime - now1⌋ = 0)]

/-- C2, witness: a 45-second backoff on host `z` yields a 429 with
`Retry-After: 45` and no upstream call. -/
theorem proxyRaw_throttles_witness :
    proxyRaw defaultConfig (fun s => some (URLModel.mk "http" "z" s))
      (some (UpstreamResp.mk 200 []))
      (Ledger.set emptyLedger "z" (BackoffRecord.mk 45 1 429)) 0 0
      "http://z/" =
      (ProxyOutcome.httpError
        (HttpError.mk 429 "Backoff in effect for upstream host"
          (some 45)),
        Ledger.set emptyLedger "z" (BackoffRecord.mk 45 1 429),
        false) := by
  have h := proxyRaw_throttles defaultConfig
    (fun s => some (URLModel.mk "http" "z" s))
    (some (UpstreamResp.mk 200 []))
    (Ledger.set emptyLedger "z" (BackoffRecord.mk 45 1 429)) 0 0
    "http://z/" (URLModel.mk "http" "z" "http://z/")
    (URLModel.mk "http" "z" "http://z/") (BackoffRecord.mk 45 1 429)
    (by decide) rfl (Or.inl rfl) (by decide) rfl (by decide)
    (ledger_set_self _ _ _) (by norm_num)
  rw [show ⌊(BackoffRecord.mk 45 1 429).untilTime - (0 : ℚ)⌋ = 45
    from by norm_num] at h
  exact h

/-- C2, counterexample: a backoff record half a second in the future
(`resumeAt` strictly in the future) is not throttled: `int(0.5) = 0`
is falsy in `if wait:`, so the request is forwarded upstream with a
200 response instead of failing with a 429. -/
theorem proxyRaw_subsecond_not_throttled :
    (0 : ℚ) < 1/2 ∧
    (proxyRaw defaultConfig (fun s => some (URLModel.mk "http" "z" s))
      (some (UpstreamResp.mk 200 []))
      (Ledger.set emptyLedger "z" (BackoffRecord.mk (1/2) 1 429))
      0 0 "http://z/").1 = ProxyOutcome.response 200 [] ∧
    (proxyRaw defaultConfig (fun s => some (URLModel.mk "http" "z" s))
      (some (UpstreamResp.mk 200 []))
      (Ledger.set emptyLedger "z" (BackoffRecord.mk (1/2) 1 429))
      0 0 "http://z/").2.2 = true := by
  have htarget : parseTarget (fun s => some (URLModel.mk "http" "z" s))
      "http://z/" = Except.ok "http://z/" := by
    simp [parseTarget]
  have hhk : hostKeyOf (fun s => some (URLModel.mk "http" "z" s)) "http://z/" =
      Except.ok "z" := by
    simp [hostKeyOf]
  have h0 : pyTrunc (1/2 - 0 : ℚ) = 0 := by
    rw [pyTrunc_nonneg _ (by norm_num), Int.floor_eq_iff] <;> norm_num
  have hab : activeBackoff
      (Ledger.set emptyLedger "z" (BackoffRecord.mk (1/2) 1 429)) 0
      "z" = (some 0,
        Ledger.set emptyLedger "z" (BackoffRecord.mk (1/2) 1 429)) := by
    simp only [activeBackoff, ledger_set_self]
    rw [if_neg (show ¬ ((1:ℚ)/2 ≤ 0) from by norm_num), h0]
  have hsan : sanitizeHeaders ([] : List (String × String)) = [] := rfl
  have hmain : proxyRaw defaultConfig (fun s => some (URLModel.mk "http" "z" s))
      (some (UpstreamResp.mk 200 []))
      (Ledger.set emptyLedger "z" (BackoffRecord.mk (1/2) 1 429))
      0 0 "http://z/" =
      (ProxyOutcome.response 200 [],
        clearBackoff
          (Ledger.set emptyLedger "z" (BackoffRecord.mk (1/2) 1 429))
          "z", true) := by
    simp only [proxyRaw, htarget, hhk, hab, hsan]
    rw [if_pos True.intro, if_neg (by decide :
      ¬ ((200 : ℤ) = 429 ∨ (200 : ℤ) ∈ longBackoffStatuses))]
  exact ⟨by norm_num, by rw [hmain], by rw [hmain]⟩
